import Mathlib

/-
Verification of the sosso full-duplex audio loop driver.

The development shallowly embeds the two source components that the
claims concern:
  * sosso::Correction (src/sosso/Correction.hpp), the drift filter, and
  * sosso::TestRun (TestRun.hpp), the loop driver, whose channel and
    clock collaborators are kept abstract as records of operations.
Machine integers (std::int64_t) are modelled as unbounded Int; C++
signed division and remainder truncate toward zero, which corresponds
to Int.tdiv and Int.tmod.
-/

namespace Sosso

/--
State of sosso::Correction, from src/sosso/Correction.hpp lines 81-86.
Field defaults match the C++ member initializers.
-/
structure Correction where
  loss_max : Int := 128
  drift_max : Int := 64
  correction : Int := 0
  average_offset : Int := 0
deriving DecidableEq, Repr

/--
Correction::correct, from src/sosso/Correction.hpp lines 63-76,
translated line by line. The C++ method mutates the object and returns
the new correction parameter; here it returns the pair of the returned
value and the new state. C++ int64 division truncates toward zero,
hence Int.tdiv.
-/
def Correction.correct (s : Correction) (balance target : Int) : Int × Correction :=
  let offset := target - balance
  let avg := (s.average_offset + offset).tdiv 2
  if offset - s.correction < -s.loss_max ∨ offset - s.correction > s.loss_max then
    (offset, { s with average_offset := avg, correction := offset })
  else
    let c := s.correction + (avg - s.correction).tdiv (s.drift_max + 1)
    (c, { s with average_offset := avg, correction := c })

/--
The correct step exactly as the specification words it (section 4.3 of
the spec): offset, EWMA update with truncating division, a rigorous
branch guarded by the absolute value strictly exceeding loss_max,
otherwise the gentle slew term.
-/
def Correction.correct_spec (s : Correction) (balance target : Int) : Int × Correction :=
  let offset := target - balance
  let avg := (s.average_offset + offset).tdiv 2
  if |offset - s.correction| > s.loss_max then
    (offset, { s with average_offset := avg, correction := offset })
  else
    let c := s.correction + (avg - s.correction).tdiv (s.drift_max + 1)
    (c, { s with average_offset := avg, correction := c })

/--
Claim C3: for every state and every pair of signed inputs, correct
computes offset, updates the moving average to the truncated half sum,
takes the rigorous branch exactly when the absolute offset error
strictly exceeds loss_max and the gentle slew otherwise, and returns
the resulting correction value. Stated as agreement between the
source translation and the definition that follows the wording of the
specification, plus the returned-value property.
-/
theorem correct_matches_spec (s : Correction) (balance target : Int) :
    Correction.correct_spec s balance target = Correction.correct s balance target ∧
    (Correction.correct s balance target).1 =
      (Correction.correct s balance target).2.correction := by
  constructor
  · unfold Correction.correct Correction.correct_spec
    have h : |target - balance - s.correction| > s.loss_max ↔
        target - balance - s.correction < -s.loss_max ∨
        target - balance - s.correction > s.loss_max := by
      constructor
      · intro h
        rcases lt_abs.mp h with h1 | h1
        · exact Or.inr h1
        · exact Or.inl (by omega)
      · intro h
        rcases h with h1 | h1
        · exact lt_abs.mpr (Or.inr (by omega))
        · exact lt_abs.mpr (Or.inl h1)
    by_cases hc : target - balance - s.correction < -s.loss_max ∨
        target - balance - s.correction > s.loss_max
    · rw [if_pos hc, if_pos (h.mpr hc)]
    · rw [if_neg hc, if_neg (fun hh => hc (h.mp hh))]
  · unfold Correction.correct
    by_cases hc : target - balance - s.correction < -s.loss_max ∨
        target - balance - s.correction > s.loss_max
    · rw [if_pos hc]
    · rw [if_neg hc]

/--
Iterated application of correct with a fixed balance and target, as in
repeated period completions of the loop.
-/
def Correction.iterate (b : Int) (k : Nat) (s : Correction) : Correction :=
  match k with
  | 0 => s
  | Nat.succ n => Correction.iterate b n (Correction.correct s b b).2

/--
The state transition of correct when balance equals target, so that
the measured offset is zero.
-/
def czStep (s : Correction) : Correction :=
  (Correction.correct s 0 0).2

theorem correct_self_eq_czStep (s : Correction) (b : Int) :
    (Correction.correct s b b).2 = czStep s := by
  unfold czStep Correction.correct
  simp

theorem iterate_eq_czStep_iterate (b : Int) (k : Nat) (s : Correction) :
    Correction.iterate b k s = czStep^[k] s := by
  induction k generalizing s with
  | zero => rfl
  | succ n ih =>
    rw [Function.iterate_succ_apply]
    unfold Correction.iterate
    rw [correct_self_eq_czStep, ih]

theorem czStep_thresholds (s : Correction) :
    (czStep s).loss_max = s.loss_max ∧ (czStep s).drift_max = s.drift_max := by
  simp only [czStep, Correction.correct]
  split <;> simp

theorem czStep_avg (s : Correction) :
    (czStep s).average_offset = s.average_offset.tdiv 2 := by
  simp only [czStep, Correction.correct]
  split <;> simp

theorem czIter_thresholds (k : Nat) (s : Correction) :
    (czStep^[k] s).loss_max = s.loss_max ∧ (czStep^[k] s).drift_max = s.drift_max := by
  induction k generalizing s with
  | zero => simp
  | succ n ih =>
    rw [Function.iterate_succ_apply]
    rcases ih (czStep s) with ⟨h1, h2⟩
    rcases czStep_thresholds s with ⟨h3, h4⟩
    exact ⟨h1.trans h3, h2.trans h4⟩

theorem czIter_avg (k : Nat) (s : Correction) :
    (czStep^[k] s).average_offset.natAbs = s.average_offset.natAbs / 2 ^ k := by
  induction k generalizing s with
  | zero => simp
  | succ n ih =>
    rw [Function.iterate_succ_apply, ih, czStep_avg, Int.natAbs_tdiv]
    have h2 : (2 : Int).natAbs = 2 := rfl
    rw [h2]
    have : s.average_offset.natAbs.div 2 = s.average_offset.natAbs / 2 := rfl
    rw [this, Nat.div_div_eq_div_mul]
    congr 1
    rw [pow_succ, mul_comm]

/--
Division step helper: adding the truncated quotient of the difference
moves a value toward the target without overshooting, so the result is
bounded by the larger magnitude of the two endpoints.
-/
theorem tdiv_step_between (x y d : Int) (hd : 0 ≤ d) :
    (x + (y - x).tdiv d).natAbs ≤ max x.natAbs y.natAbs ∧
    ((y - x).tdiv d).natAbs ≤ (y - x).natAbs := by
  have habs : ((y - x).tdiv d).natAbs = (y - x).natAbs / d.natAbs := Int.natAbs_tdiv _ _
  have hle : ((y - x).tdiv d).natAbs ≤ (y - x).natAbs := by
    rw [habs]; exact Nat.div_le_self _ _
  rcases le_total x y with h | h
  · have h0 : 0 ≤ (y - x).tdiv d := Int.tdiv_nonneg (by omega) hd
    exact ⟨by omega, hle⟩
  · have h0 : (y - x).tdiv d ≤ 0 := by
      have he : y - x = -(x - y) := by ring
      rw [he, Int.neg_tdiv]
      have : 0 ≤ (x - y).tdiv d := Int.tdiv_nonneg (by omega) hd
      omega
    exact ⟨by omega, hle⟩

theorem czStep_correction_bound (s : Correction)
    (hl : s.loss_max = 128) (hd : s.drift_max = 64) :
    (czStep s).correction.natAbs ≤ max 128 (czStep s).average_offset.natAbs := by
  have havg : (czStep s).average_offset = s.average_offset.tdiv 2 := czStep_avg s
  rw [havg]
  simp only [czStep, Correction.correct, hl, hd, sub_zero, zero_sub, add_zero]
  split
  · simp
  · rename_i hcond
    push_neg at hcond
    have hc : s.correction.natAbs ≤ 128 := by omega
    have hb := (tdiv_step_between s.correction (s.average_offset.tdiv 2)
      (64 + 1) (by omega)).1
    simp only [sub_zero, zero_sub, add_zero] at hb ⊢
    omega

theorem czStep_settle (s : Correction)
    (hl : s.loss_max = 128) (hd : s.drift_max = 64) (ha : s.average_offset = 0)
    (hc : s.correction.natAbs ≤ 128) :
    (czStep s).correction.natAbs ≤ max 64 (s.correction.natAbs - 1) ∧
    (czStep s).average_offset = 0 := by
  constructor
  · simp only [czStep, Correction.correct, hl, hd, ha, sub_zero, zero_sub, add_zero]
    rw [if_neg (by push_neg; omega)]
    simp only []
    have h1 : ((0 - s.correction).tdiv (64 + 1)).natAbs =
        (0 - s.correction).natAbs / 65 := by
      rw [Int.natAbs_tdiv]; rfl
    have h2 : 0 ≤ s.correction → (0 - s.correction).tdiv (64 + 1) ≤ 0 := by
      intro h
      have he : (0 : Int) - s.correction = -(s.correction - 0) := by ring
      rw [he, Int.neg_tdiv]
      have : 0 ≤ (s.correction - 0).tdiv (64 + 1) := Int.tdiv_nonneg (by omega) (by omega)
      omega
    have h3 : s.correction ≤ 0 → 0 ≤ (0 - s.correction).tdiv (64 + 1) :=
      fun h => Int.tdiv_nonneg (by omega) (by omega)
    have h4 : (Int.tdiv 0 2) = 0 := Int.zero_tdiv 2
    rw [h4] at *
    omega
  · rw [czStep_avg, ha, Int.zero_tdiv]

theorem czIter_settles (n : Nat) : ∀ s : Correction,
    s.loss_max = 128 → s.drift_max = 64 → s.average_offset = 0 →
    s.correction.natAbs ≤ 64 + n →
    (czStep^[n] s).correction.natAbs ≤ 64 ∧ (czStep^[n] s).average_offset = 0 := by
  induction n with
  | zero =>
    intro s _ _ h3 h5
    simpa using ⟨by omega, h3⟩
  | succ m ih =>
    intro s h1 h2 h3 hc
    rw [Function.iterate_succ_apply]
    rcases czStep_thresholds s with ⟨t1, t2⟩
    by_cases hbig : s.correction.natAbs ≤ 128
    · rcases czStep_settle s h1 h2 h3 hbig with ⟨b1, b2⟩
      exact ih (czStep s) (t1.trans h1) (t2.trans h2) b2 (by omega)
    · -- The rigorous branch resets the correction to zero.
      have hz : (czStep s).correction = 0 ∧ (czStep s).average_offset = 0 := by
        simp only [czStep, Correction.correct, h1, h2, h3, sub_zero, zero_sub, add_zero]
        rw [if_pos (by omega)]
        simp [Int.zero_tdiv]
      exact ih (czStep s) (t1.trans h1) (t2.trans h2) hz.2 (by omega)

theorem czStep_fixed (s : Correction)
    (hl : s.loss_max = 128) (hd : s.drift_max = 64) (ha : s.average_offset = 0)
    (hc : s.correction.natAbs ≤ 64) :
    czStep s = s := by
  rcases s with ⟨l, d, c, a⟩
  simp only at hl hd ha hc
  subst hl hd ha
  have habs : (c.tdiv 65).natAbs = c.natAbs / 65 := by
    rw [Int.natAbs_tdiv]; rfl
  have hct : c.tdiv 65 = 0 := by omega
  simp only [czStep, Correction.correct, sub_zero, zero_sub, add_zero]
  rw [if_neg (by push_neg; omega)]
  simp [Int.zero_tdiv, Int.neg_tdiv, hct]

/--
Claim C4, counterexample: with default thresholds, the state with
correction 10 and average offset 0 is a fixed point of correct with
balance equal to target, so the correction value never reaches 0.
After 128 iterations, twice the default drift_max of 64, it is
still 10.
-/
theorem correct_self_converge_counterexample :
    (Correction.iterate 5 128 { correction := 10 }).correction = 10 ∧
    (Correction.correct (Correction.iterate 5 128 { correction := 10 }) 5 5).2 =
      Correction.iterate 5 128 { correction := 10 } ∧
    (10 : Int) ≠ 0 := by
  have hfix : czStep { correction := 10 } = ({ correction := 10 } : Correction) := by decide
  have hiter : Correction.iterate 5 128 ({ correction := 10 } : Correction) =
      ({ correction := 10 } : Correction) := by
    rw [iterate_eq_czStep_iterate, Function.iterate_fixed hfix]
  refine ⟨by rw [hiter], ?_, by decide⟩
  rw [hiter, correct_self_eq_czStep, hfix]

/--
Claim C4, amended: for every balance b and every starting state with
default thresholds whose average offset fits a signed 64-bit integer,
128 iterations of correct with balance equal to target (twice the
default drift_max) drive the correction to a fixed point whose
magnitude is at most drift_max = 64; the correction does not in
general reach 0.
-/
theorem correct_self_settles (b c a : Int) (ha : a.natAbs < 2 ^ 63) :
    ((Correction.iterate b 128
        { loss_max := 128, drift_max := 64, correction := c, average_offset := a }).correction.natAbs ≤ 64) ∧
    (Correction.correct (Correction.iterate b 128
        { loss_max := 128, drift_max := 64, correction := c, average_offset := a }) b b).2 =
      Correction.iterate b 128
        { loss_max := 128, drift_max := 64, correction := c, average_offset := a } := by
  set s0 : Correction :=
    { loss_max := 128, drift_max := 64, correction := c, average_offset := a } with hs0
  have hiter : Correction.iterate b 128 s0 = czStep^[128] s0 :=
    iterate_eq_czStep_iterate b 128 s0
  -- After 63 halvings the moving average is exhausted.
  have havg63 : (czStep^[63] s0).average_offset = 0 := by
    have h := czIter_avg 63 s0
    have hz : s0.average_offset.natAbs / 2 ^ 63 = 0 :=
      Nat.div_eq_of_lt (by simpa [hs0] using ha)
    rw [hz] at h
    exact Int.natAbs_eq_zero.mp h
  have hthr63 := czIter_thresholds 63 s0
  have hthr62 := czIter_thresholds 62 s0
  -- One application of the step bound caps the correction at 128.
  have hc63 : (czStep^[63] s0).correction.natAbs ≤ 128 := by
    have h63 : czStep^[63] s0 = czStep (czStep^[62] s0) :=
      Function.iterate_succ_apply' czStep 62 s0
    have hb := czStep_correction_bound (czStep^[62] s0)
      (hthr62.1.trans rfl) (hthr62.2.trans rfl)
    rw [← h63] at hb
    rw [havg63] at hb
    simp only [Int.natAbs_zero] at hb
    omega
  -- Sixty four more steps settle into the drift band.
  have hsettle := czIter_settles 64 (czStep^[63] s0)
    (hthr63.1.trans rfl) (hthr63.2.trans rfl) havg63 (by omega)
  have hcomp : czStep^[64] (czStep^[63] s0) = czStep^[127] s0 := by
    rw [← Function.iterate_add_apply]
  rw [hcomp] at hsettle
  have hthr127 := czIter_thresholds 127 s0
  have hfix : czStep (czStep^[127] s0) = czStep^[127] s0 :=
    czStep_fixed _ (hthr127.1.trans rfl) (hthr127.2.trans rfl) hsettle.2 hsettle.1
  have h128 : czStep^[128] s0 = czStep^[127] s0 := by
    rw [Function.iterate_succ_apply' czStep 127 s0, hfix]
  constructor
  · rw [hiter, h128]; exact hsettle.1
  · rw [hiter, h128, correct_self_eq_czStep, hfix]

set_option maxRecDepth 10000 in
/--
Witness for the amended claim C4 at the concrete starting state with
correction 200 and average offset 5, balance 3.
-/
theorem correct_self_settles_witness :
    (Correction.iterate 3 128
        { loss_max := 128, drift_max := 64, correction := 200, average_offset := 5 }).correction.natAbs ≤ 64 := by
  exact (correct_self_settles 3 200 5 (by decide)).1

/--
Feeding a list of balances to correct with target 0, collecting the
returned correction values, as the loop driver does once per completed
period.
-/
def Correction.run (s : Correction) : List Int → List Int
  | [] => []
  | b :: bs =>
    let r := Correction.correct s b 0
    r.1 :: Correction.run r.2 bs

theorem correct_bounded_step (s : Correction) (b : Int)
    (hl : s.loss_max = 128) (hd : s.drift_max = 64)
    (hc : s.correction.natAbs ≤ 128) (ha : s.average_offset.natAbs ≤ 128)
    (hb : b.natAbs ≤ 128) :
    (Correction.correct s b 0).1 = (Correction.correct s b 0).2.correction ∧
    (Correction.correct s b 0).2.loss_max = 128 ∧
    (Correction.correct s b 0).2.drift_max = 64 ∧
    (Correction.correct s b 0).2.correction.natAbs ≤ 128 ∧
    (Correction.correct s b 0).2.average_offset.natAbs ≤ 128 ∧
    ((Correction.correct s b 0).2.correction - s.correction).natAbs ≤ 256 := by
  have havgabs : ((s.average_offset + (0 - b)).tdiv 2).natAbs =
      (s.average_offset + (0 - b)).natAbs / 2 := by
    rw [Int.natAbs_tdiv]; rfl
  have havgle : ((s.average_offset + (0 - b)).tdiv 2).natAbs ≤ 128 := by omega
  have hstep := tdiv_step_between s.correction ((s.average_offset + (0 - b)).tdiv 2)
    (64 + 1) (by omega)
  simp only [Correction.correct, hl, hd]
  split
  · rename_i hcond
    dsimp only
    refine ⟨rfl, rfl, rfl, by omega, havgle, by omega⟩
  · rename_i hcond
    push_neg at hcond
    dsimp only
    refine ⟨rfl, rfl, rfl, by omega, havgle, by omega⟩

theorem run_bounded_aux : ∀ (bs : List Int) (s : Correction),
    s.loss_max = 128 → s.drift_max = 64 →
    s.correction.natAbs ≤ 128 → s.average_offset.natAbs ≤ 128 →
    (∀ b ∈ bs, b.natAbs ≤ 128) →
    (∀ x ∈ Correction.run s bs, x.natAbs ≤ 128) ∧
    List.Chain' (fun x y => (y - x).natAbs ≤ 256) (s.correction :: Correction.run s bs)
  | [], s, _, _, _, _, _ => by
    simp [Correction.run]
  | b :: bs, s, hl, hd, hc, ha, hmem => by
    have hb : b.natAbs ≤ 128 := hmem b (List.mem_cons_self b bs)
    rcases correct_bounded_step s b hl hd hc ha hb with ⟨hret, h1, h2, h3, h4, h5⟩
    have ih := run_bounded_aux bs (Correction.correct s b 0).2 h1 h2 h3 h4
      (fun x hx => hmem x (List.mem_cons_of_mem b hx))
    constructor
    · intro x hx
      simp only [Correction.run, List.mem_cons] at hx
      rcases hx with hx | hx
      · rw [hx, hret]; exact h3
      · exact ih.1 x hx
    · show List.Chain' _ (s.correction :: Correction.run s (b :: bs))
      have hrun : Correction.run s (b :: bs) =
          (Correction.correct s b 0).1 :: Correction.run (Correction.correct s b 0).2 bs := rfl
      rw [hrun, hret]
      exact List.chain'_cons.mpr ⟨h5, ih.2⟩

/--
Claim C9, counterexample: the balance sequence 128, 128, -128, each
bounded by loss_max = 128, produces the correction values 0, -1, 128
from the default state; the step from -1 to 128 has magnitude 129,
far above the claimed bound of 2, the rounded-up quotient of loss_max
by drift_max + 1.
-/
theorem correction_step_size_counterexample :
    Correction.run {} [128, 128, -128] = [0, -1, 128] ∧
    ((128 : Int) - (-1)).natAbs = 129 ∧
    (128 + (64 + 1) - 1) / (64 + 1) = 2 ∧ ¬(129 ≤ 2) := by
  refine ⟨by decide, by decide, by decide, by decide⟩

/--
Claim C9, amended: for every sequence of balances bounded in magnitude
by loss_max = 128, fed to correct with target 0 from the default
state, every returned correction value is bounded in magnitude by
loss_max, and the change between consecutive correction values is at
most 2 times loss_max; the originally claimed per-step bound of the
rounded-up quotient of loss_max by drift_max + 1 holds only for the
gentle branch and fails when the rigorous branch fires.
-/
theorem correction_sequence_bounded (bs : List Int)
    (h : ∀ b ∈ bs, b.natAbs ≤ 128) :
    (∀ x ∈ Correction.run {} bs, x.natAbs ≤ 128) ∧
    List.Chain' (fun x y => (y - x).natAbs ≤ 256) ((0 : Int) :: Correction.run {} bs) := by
  have haux := run_bounded_aux bs {} rfl rfl (by decide) (by decide) h
  exact haux

/--
Witness for the amended claim C9 at the concrete balance sequence
100, -50.
-/
theorem correction_sequence_bounded_witness :
    List.Chain' (fun x y => (y - x).natAbs ≤ 256)
      ((0 : Int) :: Correction.run {} [100, -50]) :=
  (correction_sequence_bounded [100, -50] (by decide)).2

/--
Exit point of the initialization part of TestRun::read_write
(TestRun.hpp lines 45 to 105). Each error constructor corresponds to
one early return of false; ok means control reaches the main loop.
-/
inductive InitExit where
  | errInRecording
  | errOutPlayback
  | errInMap
  | errOutMap
  | errRate
  | errSyncGroup
  | errStartSync
  | errClock
  | ok
deriving DecidableEq, Repr

/--
Static configuration of a channel as queried during initialization:
direction flags, memory map capability and outcome, sample rate,
stepping and sync group call outcomes.
-/
structure InitChan where
  recording : Bool
  playback : Bool
  can_memory_map : Bool
  memory_map_ok : Bool
  sample_rate : Nat
  stepping : Nat
  add_sync_ok : Bool
  start_sync_ok : Bool
deriving DecidableEq, Repr

/--
Observable side effects accumulated during initialization: the end
frames passed to set_buffer on each channel, the mapped flags, whether
the sync group was started and whether the clock was initialized.
-/
structure InitTrace where
  in_enqueued : List Int := []
  out_enqueued : List Int := []
  in_mapped : Bool := false
  out_mapped : Bool := false
  sync_started : Bool := false
  clock_inited : Bool := false
deriving DecidableEq, Repr

/--
The initialization part of TestRun::read_write, TestRun.hpp lines 45
to 105, translated check by check in source order. Notably the
buffers are enqueued (lines 67 to 80) before the sample rate check
(lines 82 to 87), and the stepping comparison keeps the self
comparison of the out channel exactly as written in line 82 of the
source.
-/
def read_write_init (cin cout : InitChan) (period : Int)
    (memory_map : Bool) (clock_ok : Bool) : InitExit × InitTrace :=
  if !cin.recording then (InitExit.errInRecording, {})
  else if !cout.playback then (InitExit.errOutPlayback, {})
  else if memory_map && cin.can_memory_map && !cin.memory_map_ok then
    (InitExit.errInMap, {})
  else
    let t1 : InitTrace := { in_mapped := memory_map && cin.can_memory_map }
    if memory_map && cout.can_memory_map && !cout.memory_map_ok then
      (InitExit.errOutMap, t1)
    else
      let t2 := { t1 with out_mapped := memory_map && cout.can_memory_map }
      let in_frames := period
      let t3 := { t2 with in_enqueued := t2.in_enqueued ++ [in_frames] }
      let in_frames2 := in_frames + period
      let t4 := { t3 with in_enqueued := t3.in_enqueued ++ [in_frames2] }
      let out_frames := period
      let t5 := { t4 with out_enqueued := t4.out_enqueued ++ [out_frames] }
      let out_frames2 := out_frames + period
      let t6 := { t5 with out_enqueued := t5.out_enqueued ++ [out_frames2] }
      if cout.stepping ≠ cout.stepping ∨ cin.sample_rate ≠ cout.sample_rate then
        (InitExit.errRate, t6)
      else if !(cin.add_sync_ok && cout.add_sync_ok) then (InitExit.errSyncGroup, t6)
      else if !cin.start_sync_ok then (InitExit.errStartSync, t6)
      else
        let t7 := { t6 with sync_started := true }
        if !clock_ok then (InitExit.errClock, t7)
        else (InitExit.ok, { t7 with clock_inited := true })

/--
Channel configurations exhibiting a sample rate mismatch of 44100
against 48000 with all other preconditions satisfied.
-/
def rateMismatchIn : InitChan :=
  { recording := true, playback := false, can_memory_map := false,
    memory_map_ok := false, sample_rate := 44100, stepping := 16,
    add_sync_ok := true, start_sync_ok := true }

def rateMismatchOut : InitChan :=
  { recording := false, playback := true, can_memory_map := false,
    memory_map_ok := false, sample_rate := 48000, stepping := 16,
    add_sync_ok := true, start_sync_ok := true }

/--
Claim C1, counterexample: on a sample rate mismatch of 44100 against
48000, read_write does return false through the rate check, but at
that point two buffers have already been enqueued on each channel, so
the return does not happen before any set_buffer call.
-/
theorem rate_mismatch_after_enqueue :
    (read_write_init rateMismatchIn rateMismatchOut 1024 true true).1 = InitExit.errRate ∧
    (read_write_init rateMismatchIn rateMismatchOut 1024 true true).2.in_enqueued = [1024, 2048] ∧
    (read_write_init rateMismatchIn rateMismatchOut 1024 true true).2.out_enqueued = [1024, 2048] := by
  refine ⟨by decide, by decide, by decide⟩

/--
Claim C1, amended: if the read and write channels report different
sample rates and every earlier precondition passes, read_write
returns false through the rate check after two buffers have been
enqueued on each channel, but before the sync group is started and
before the clock is initialized.
-/
theorem rate_mismatch_rejected (cin cout : InitChan) (period : Int)
    (memory_map clock_ok : Bool)
    (hrec : cin.recording = true) (hpb : cout.playback = true)
    (hmi : (memory_map && cin.can_memory_map && !cin.memory_map_ok) = false)
    (hmo : (memory_map && cout.can_memory_map && !cout.memory_map_ok) = false)
    (hrate : cin.sample_rate ≠ cout.sample_rate) :
    (read_write_init cin cout period memory_map clock_ok).1 = InitExit.errRate ∧
    (read_write_init cin cout period memory_map clock_ok).2.in_enqueued = [period, period + period] ∧
    (read_write_init cin cout period memory_map clock_ok).2.out_enqueued = [period, period + period] ∧
    (read_write_init cin cout period memory_map clock_ok).2.sync_started = false ∧
    (read_write_init cin cout period memory_map clock_ok).2.clock_inited = false := by
  unfold read_write_init
  rw [if_neg (by simp [hrec]), if_neg (by simp [hpb]), if_neg (by simp [hmi]),
    if_neg (by simp [hmo]), if_pos (Or.inr hrate)]
  exact ⟨rfl, rfl, rfl, rfl, rfl⟩

/--
Witness for the amended claim C1 at the concrete mismatching
configurations.
-/
theorem rate_mismatch_rejected_witness :
    (read_write_init rateMismatchIn rateMismatchOut 1024 false true).1 = InitExit.errRate :=
  (rate_mismatch_rejected rateMismatchIn rateMismatchOut 1024 false true
    rfl rfl rfl rfl (by decide)).1

/--
Channel configurations with equal sample rates but different stepping
values, all other preconditions satisfied.
-/
def steppingMismatchIn : InitChan :=
  { recording := true, playback := false, can_memory_map := false,
    memory_map_ok := false, sample_rate := 48000, stepping := 16,
    add_sync_ok := true, start_sync_ok := true }

def steppingMismatchOut : InitChan :=
  { recording := false, playback := true, can_memory_map := false,
    memory_map_ok := false, sample_rate := 48000, stepping := 32,
    add_sync_ok := true, start_sync_ok := true }

/--
Claim C2: the source at TestRun.hpp line 82 compares the stepping of
the out channel with itself, a comparison that is always false, so a
run whose channels disagree on stepping, 16 against 32, passes the
check and initialization reaches the loop. The claim is right about
the intent, stated in the source comment on line 81 and in the
specification, and the code is wrong: with mismatched stepping values
read_write does not return false at the verification point.
-/
theorem stepping_mismatch_not_rejected :
    steppingMismatchIn.stepping ≠ steppingMismatchOut.stepping ∧
    (read_write_init steppingMismatchIn steppingMismatchOut 1024 true true).1 =
      InitExit.ok := by
  refine ⟨by decide, by decide⟩

/--
Claim C10: with memory mapping requested, a channel that does not
advertise memory map support is left unmapped and initialization
continues; the mapping step aborts the run exactly when the channel
advertises support and the map call fails.
-/
theorem memory_map_optional (cin cout : InitChan) (period : Int) (clock_ok : Bool)
    (hrec : cin.recording = true) (hpb : cout.playback = true) :
    (cin.can_memory_map = false →
      (read_write_init cin cout period true clock_ok).1 ≠ InitExit.errInMap ∧
      (read_write_init cin cout period true clock_ok).2.in_mapped = false) ∧
    (cout.can_memory_map = false →
      (read_write_init cin cout period true clock_ok).1 ≠ InitExit.errOutMap ∧
      (read_write_init cin cout period true clock_ok).2.out_mapped = false) ∧
    ((read_write_init cin cout period true clock_ok).1 = InitExit.errInMap ↔
      cin.can_memory_map = true ∧ cin.memory_map_ok = false) ∧
    ((read_write_init cin cout period true clock_ok).1 = InitExit.errOutMap ↔
      (cin.can_memory_map = true → cin.memory_map_ok = true) ∧
      cout.can_memory_map = true ∧ cout.memory_map_ok = false) := by
  unfold read_write_init
  rw [if_neg (by simp [hrec]), if_neg (by simp [hpb])]
  split_ifs <;> simp_all

/--
Witness for claim C10: a channel pair where the in channel cannot be
mapped and the out channel maps successfully passes the mapping step.
-/
theorem memory_map_optional_witness :
    (read_write_init rateMismatchIn rateMismatchOut 1024 true true).1 ≠
      InitExit.errInMap :=
  ((memory_map_optional rateMismatchIn rateMismatchOut 1024 true rfl rfl).1 rfl).1

variable {σi σo τ : Type}

/--
Abstract interface of a DoubleBuffer channel as used by the loop in
TestRun::read_write, TestRun.hpp lines 107 to 155 and 162 to 215.
The channel state type is abstract; every operation the loop calls is
a field. Operations that can fail return Option, operations that
mutate return a new channel state.
-/
structure ChannelOps (σ : Type) where
  wakeup_time : σ → Int → Int
  process : σ → Int → Option σ
  finished : σ → Int → Bool
  balance : σ → Int
  take_buffer : σ → σ
  set_buffer : σ → Int → σ
  period_end : σ → Int
  end_frames : σ → Int
  reset_buffers : σ → Int → σ
  stepping : σ → Int

/--
Abstract interface of the FrameClock as used by the loop: sleep until
a frame deadline and read the current frame time, both fallible.
-/
structure ClockOps (τ : Type) where
  sleep : τ → Int → Option τ
  now : τ → Option (Int × τ)

/--
The two channels and the clock of a TestRun.
-/
structure Env (σi σo τ : Type) where
  cin : ChannelOps σi
  cout : ChannelOps σo
  clk : ClockOps τ

/--
Mutable state of TestRun during the loop: channel states, clock
state, the members of TestRun (TestRun.hpp lines 217 to 223) and the
locals of read_write that live across iterations (in_frames,
out_frames, finished).
-/
structure LoopState (σi σo τ : Type) where
  chin : σi
  chout : σo
  clock : τ
  sync_frames : Int
  gap : Int
  in_correction : Correction
  out_correction : Correction
  in_frames : Int
  out_frames : Int
  finished : Nat
deriving DecidableEq

/--
TestRun::process, TestRun.hpp lines 162 to 175: process each channel
whose wakeup time has been reached; failure of either process call
aborts.
-/
def processStep (e : Env σi σo τ) (s : LoopState σi σo τ) :
    Option (LoopState σi σo τ) :=
  (if e.cin.wakeup_time s.chin s.sync_frames ≤ s.sync_frames then
      e.cin.process s.chin s.sync_frames
    else some s.chin).bind fun ci =>
  (if e.cout.wakeup_time s.chout s.sync_frames ≤ s.sync_frames then
      e.cout.process s.chout s.sync_frames
    else some s.chout).map fun co =>
  { s with chin := ci, chout := co }

/--
First half of TestRun::sleep, TestRun.hpp lines 177 to 192: when the
next wakeup lies ahead, sleep the clock to the wakeup plus the
simulated delay, then set sync_frames to the wakeup.
-/
def sleepPhase (e : Env σi σo τ) (s : LoopState σi σo τ) :
    Option (LoopState σi σo τ) :=
  let wakeup := min (e.cin.wakeup_time s.chin s.sync_frames)
    (e.cout.wakeup_time s.chout s.sync_frames)
  if wakeup > s.sync_frames then
    let sim_delay : Int :=
      if (s.sync_frames.tdiv 1024).tmod 8 = 7 then 8 * 1024 else 0
    (e.clk.sleep s.clock (wakeup + sim_delay)).map fun t =>
      { s with clock := t, sync_frames := wakeup }
  else some s

/--
Second half of TestRun::sleep, TestRun.hpp lines 193 to 205: read the
clock and, when the wakeup was late by more than one stepping, add
the stepping-rounded lateness to sync_frames.
-/
def catchupPhase (e : Env σi σo τ) (s : LoopState σi σo τ) :
    Option (LoopState σi σo τ) :=
  (e.clk.now s.clock).map fun p =>
    let s2 := { s with clock := p.2 }
    let sync_diff := p.1 - s2.sync_frames
    if sync_diff > e.cin.stepping s2.chin then
      { s2 with sync_frames :=
          s2.sync_frames + (sync_diff - sync_diff.tmod (e.cin.stepping s2.chin)) }
    else s2

/--
Tail of TestRun::sleep, TestRun.hpp lines 206 to 213: compute the gap
behind both period ends and either hard reset both channels, keeping
the gap, or clear the gap.
-/
def gapStage (e : Env σi σo τ) (s : LoopState σi σo τ) : LoopState σi σo τ :=
  let g1 := max 0 (s.sync_frames - e.cin.period_end s.chin)
  let g := max g1 (s.sync_frames - e.cout.period_end s.chout)
  if g > 1024 then
    { s with gap := g,
             chin := e.cin.reset_buffers s.chin (e.cin.end_frames s.chin + g),
             chout := e.cout.reset_buffers s.chout (e.cout.end_frames s.chout + g) }
  else { s with gap := 0 }

/--
TestRun::sleep in full, TestRun.hpp lines 177 to 215.
-/
def sleepStep (e : Env σi σo τ) (s : LoopState σi σo τ) :
    Option (LoopState σi σo τ) :=
  ((sleepPhase e s).bind (catchupPhase e)).map (gapStage e)

/--
Completion handling for the in channel, TestRun.hpp lines 112 to 128:
when the front buffer is finished, update the drift correction from
the channel balance, take the buffer, advance in_frames by one period
and enqueue the next buffer at in_frames plus the correction.
-/
def finishIn (e : Env σi σo τ) (period : Int) (s : LoopState σi σo τ) :
    LoopState σi σo τ :=
  if e.cin.finished s.chin s.sync_frames then
    let r := s.in_correction.correct (e.cin.balance s.chin) 0
    let frames := s.in_frames + period
    { s with in_correction := r.2,
             chin := e.cin.set_buffer (e.cin.take_buffer s.chin)
               (frames + r.2.correction),
             in_frames := frames,
             finished := s.finished + 1 }
  else s

/--
Completion handling for the out channel, TestRun.hpp lines 129 to
145, symmetric to the in channel.
-/
def finishOut (e : Env σi σo τ) (period : Int) (s : LoopState σi σo τ) :
    LoopState σi σo τ :=
  if e.cout.finished s.chout s.sync_frames then
    let r := s.out_correction.correct (e.cout.balance s.chout) 0
    let frames := s.out_frames + period
    { s with out_correction := r.2,
             chout := e.cout.set_buffer (e.cout.take_buffer s.chout)
               (frames + r.2.correction),
             out_frames := frames,
             finished := s.finished + 1 }
  else s

/--
Gap handling at the bottom of the loop body, TestRun.hpp lines 149 to
154: a surviving positive gap shifts in_frames and out_frames and is
cleared.
-/
def gapApply (s : LoopState σi σo τ) : LoopState σi σo τ :=
  if s.gap > 0 then
    { s with in_frames := s.in_frames + s.gap,
             out_frames := s.out_frames + s.gap,
             gap := 0 }
  else s

/--
One iteration of the loop body of read_write, TestRun.hpp lines 108
to 155.
-/
def bodyStep (e : Env σi σo τ) (period : Int) (s : LoopState σi σo τ) :
    Option (LoopState σi σo τ) :=
  (processStep e s).bind fun s1 =>
    (sleepStep e (finishOut e period (finishIn e period s1))).map gapApply

/--
The loop of read_write, TestRun.hpp line 108: run body iterations
while repetitions exceeds the finished counter. The fuel argument
bounds the number of iterations modelled; exhausting it yields none.
On success the result carries the final state and the number of
iterations executed.
-/
def loopRun (e : Env σi σo τ) (period : Int) (repetitions : Nat) :
    Nat → LoopState σi σo τ → Option (LoopState σi σo τ × Nat)
  | fuel, s =>
    if repetitions > s.finished then
      match fuel with
      | 0 => none
      | Nat.succ f =>
        match bodyStep e period s with
        | none => none
        | some s1 =>
          match loopRun e period repetitions f s1 with
          | none => none
          | some (sf, n) => some (sf, n + 1)
    else some (s, 0)

/--
The loop state at entry to the main loop: sync_frames and gap are the
member initializers of TestRun (TestRun.hpp lines 218 to 219), both
corrections have default thresholds with the drift limit set to 64
(lines 91 to 92), and both frame counters stand at two periods after
the two initial set_buffer calls (lines 67 to 80).
-/
def initLoopState (ci : σi) (co : σo) (t : τ) (period : Int) :
    LoopState σi σo τ :=
  { chin := ci, chout := co, clock := t, sync_frames := 0, gap := 0,
    in_correction := {}, out_correction := {},
    in_frames := period + period, out_frames := period + period, finished := 0 }

theorem sleepPhase_fields (e : Env σi σo τ) (s s1 : LoopState σi σo τ)
    (h : sleepPhase e s = some s1) :
    s1.finished = s.finished ∧ s1.chin = s.chin ∧ s1.chout = s.chout ∧
    s1.gap = s.gap ∧ s1.in_frames = s.in_frames ∧ s1.out_frames = s.out_frames ∧
    s.sync_frames ≤ s1.sync_frames := by
  unfold sleepPhase at h
  dsimp only at h
  split at h
  · rename_i hgt
    split at h <;>
    · rw [Option.map_eq_some'] at h
      obtain ⟨t, _, heq⟩ := h
      rw [← heq]
      exact ⟨rfl, rfl, rfl, rfl, rfl, rfl, le_of_lt hgt⟩
  · rw [Option.some_inj] at h
    rw [← h]
    exact ⟨rfl, rfl, rfl, rfl, rfl, rfl, le_refl _⟩

theorem catchupPhase_fields (e : Env σi σo τ) (s s1 : LoopState σi σo τ)
    (hst : 0 ≤ e.cin.stepping s.chin)
    (h : catchupPhase e s = some s1) :
    s1.finished = s.finished ∧ s1.chin = s.chin ∧ s1.chout = s.chout ∧
    s1.gap = s.gap ∧ s1.in_frames = s.in_frames ∧ s1.out_frames = s.out_frames ∧
    s.sync_frames ≤ s1.sync_frames := by
  unfold catchupPhase at h
  cases hn : e.clk.now s.clock with
  | none => rw [hn] at h; cases h
  | some p =>
    rw [hn] at h
    simp only [Option.map_some', Option.some_inj] at h
    rw [← h]
    split
    · rename_i hdiff
      refine ⟨rfl, rfl, rfl, rfl, rfl, rfl, ?_⟩
      dsimp only
      have hmod : 0 ≤ (p.1 - s.sync_frames).tmod (e.cin.stepping s.chin) ∧
          (p.1 - s.sync_frames).tmod (e.cin.stepping s.chin) ≤ p.1 - s.sync_frames := by
        rcases lt_or_eq_of_le hst with h0 | h0
        · exact ⟨Int.tmod_nonneg _ (by omega),
            le_of_lt (lt_trans (Int.tmod_lt_of_pos _ h0) (by omega))⟩
        · rw [← h0, Int.tmod_zero]
          omega
      omega
    · exact ⟨rfl, rfl, rfl, rfl, rfl, rfl, le_refl _⟩

theorem gapStage_fields (e : Env σi σo τ) (s : LoopState σi σo τ) :
    (gapStage e s).finished = s.finished ∧
    (gapStage e s).sync_frames = s.sync_frames ∧
    (gapStage e s).in_frames = s.in_frames ∧
    (gapStage e s).out_frames = s.out_frames := by
  unfold gapStage
  dsimp only
  split <;> exact ⟨rfl, rfl, rfl, rfl⟩

theorem sleepStep_sync (e : Env σi σo τ) (s s1 : LoopState σi σo τ)
    (hst : 0 ≤ e.cin.stepping s.chin)
    (h : sleepStep e s = some s1) :
    s.sync_frames ≤ s1.sync_frames ∧ s1.finished = s.finished := by
  unfold sleepStep at h
  cases hp : sleepPhase e s with
  | none => rw [hp] at h; cases h
  | some sa =>
    rw [hp] at h
    simp only [Option.some_bind] at h
    cases hc : catchupPhase e sa with
    | none => rw [hc] at h; cases h
    | some sc =>
      rw [hc] at h
      simp only [Option.map_some', Option.some_inj] at h
      rcases sleepPhase_fields e s sa hp with ⟨f1, f2, _, _, _, _, f7⟩
      have hst2 : 0 ≤ e.cin.stepping sa.chin := by rw [f2]; exact hst
      rcases catchupPhase_fields e sa sc hst2 hc with ⟨g1, _, _, _, _, _, g7⟩
      rcases gapStage_fields e sc with ⟨k1, k2, _, _⟩
      rw [← h]
      constructor
      · rw [k2]; omega
      · rw [k1, g1, f1]

/--
Claim C8: sync_frames starts at 0 at loop entry and every successful
sleep call leaves it no smaller than before, for every behavior of
the clock and of the channel wakeup times, whenever the stepping
value is nonnegative as it is for the unsigned stepping of a real
channel.
-/
theorem sync_frames_monotonic :
    (∀ (α β γ : Type) (ci : α) (co : β) (t : γ) (period : Int),
        (initLoopState ci co t period).sync_frames = 0) ∧
    (∀ (α β γ : Type) (e : Env α β γ) (s s1 : LoopState α β γ),
        0 ≤ e.cin.stepping s.chin → sleepStep e s = some s1 →
        s.sync_frames ≤ s1.sync_frames) := by
  constructor
  · intro α β γ ci co t period
    rfl
  · intro α β γ e s s1 hst h
    exact (sleepStep_sync e s s1 hst h).1

/--
Concrete channel, clock and environment over the unit state, used to
exercise the loop embedding on closed inputs: both channels finish
every period at once, processing and sleeping always succeed, and
the period ends lie far ahead so no gap arises.
-/
def unitChan : ChannelOps Unit :=
  { wakeup_time := fun _ sf => sf,
    process := fun _ _ => some (),
    finished := fun _ _ => true,
    balance := fun _ => 0,
    take_buffer := fun _ => (),
    set_buffer := fun _ _ => (),
    period_end := fun _ => 1000000000,
    end_frames := fun _ => 1000000000,
    reset_buffers := fun _ _ => (),
    stepping := fun _ => 16 }

def unitClock : ClockOps Unit :=
  { sleep := fun _ _ => some (), now := fun _ => some (0, ()) }

def unitEnv : Env Unit Unit Unit :=
  { cin := unitChan, cout := unitChan, clk := unitClock }

/--
Witness for claim C8 at the unit environment and the entry state.
-/
theorem sync_frames_monotonic_witness :
    (initLoopState () () () 1024 : LoopState Unit Unit Unit).sync_frames ≤
      (initLoopState () () () 1024 : LoopState Unit Unit Unit).sync_frames :=
  sync_frames_monotonic.2 Unit Unit Unit unitEnv _ _ (by decide) (by decide)

theorem catchupPhase_finished (e : Env σi σo τ) (s s1 : LoopState σi σo τ)
    (h : catchupPhase e s = some s1) : s1.finished = s.finished := by
  unfold catchupPhase at h
  cases hn : e.clk.now s.clock with
  | none => rw [hn] at h; cases h
  | some p =>
    rw [hn] at h
    simp only [Option.map_some', Option.some_inj] at h
    rw [← h]
    split <;> rfl

theorem sleepStep_finished (e : Env σi σo τ) (s s1 : LoopState σi σo τ)
    (h : sleepStep e s = some s1) : s1.finished = s.finished := by
  unfold sleepStep at h
  cases hp : sleepPhase e s with
  | none => rw [hp] at h; cases h
  | some sa =>
    rw [hp] at h
    simp only [Option.some_bind] at h
    cases hc : catchupPhase e sa with
    | none => rw [hc] at h; cases h
    | some sc =>
      rw [hc] at h
      simp only [Option.map_some', Option.some_inj] at h
      rw [← h, (gapStage_fields e sc).1, catchupPhase_finished e sa sc hc,
        (sleepPhase_fields e s sa hp).1]

theorem finishIn_fields (e : Env σi σo τ) (period : Int) (s : LoopState σi σo τ) :
    (finishIn e period s).finished =
      s.finished + (if e.cin.finished s.chin s.sync_frames then 1 else 0) ∧
    (finishIn e period s).chout = s.chout ∧
    (finishIn e period s).sync_frames = s.sync_frames := by
  unfold finishIn
  dsimp only
  split <;> rename_i hf <;> simp [hf]

theorem finishOut_fields (e : Env σi σo τ) (period : Int) (s : LoopState σi σo τ) :
    (finishOut e period s).finished =
      s.finished + (if e.cout.finished s.chout s.sync_frames then 1 else 0) := by
  unfold finishOut
  dsimp only
  split <;> rename_i hf <;> simp [hf]

theorem processStep_fields (e : Env σi σo τ) (s s1 : LoopState σi σo τ)
    (h : processStep e s = some s1) :
    s1.finished = s.finished ∧ s1.sync_frames = s.sync_frames := by
  unfold processStep at h
  cases hi : (if e.cin.wakeup_time s.chin s.sync_frames ≤ s.sync_frames then
      e.cin.process s.chin s.sync_frames else some s.chin) with
  | none => rw [hi] at h; cases h
  | some ci =>
    rw [hi] at h
    simp only [Option.some_bind] at h
    cases ho : (if e.cout.wakeup_time s.chout s.sync_frames ≤ s.sync_frames then
        e.cout.process s.chout s.sync_frames else some s.chout) with
    | none => rw [ho] at h; cases h
    | some co =>
      rw [ho] at h
      simp only [Option.map_some', Option.some_inj] at h
      rw [← h]
      exact ⟨rfl, rfl⟩

theorem gapApply_finished (s : LoopState σi σo τ) :
    (gapApply s).finished = s.finished := by
  unfold gapApply
  split <;> rfl

theorem loopRun_exit (e : Env σi σo τ) (period : Int) (reps fuel : Nat)
    (s : LoopState σi σo τ) (h : reps ≤ s.finished) :
    loopRun e period reps fuel s = some (s, 0) := by
  unfold loopRun
  rw [if_neg (by omega)]

theorem bodyStep_count (e : Env σi σo τ) (period : Int) (s s3 : LoopState σi σo τ)
    (h : bodyStep e period s = some s3) :
    ∃ s1, processStep e s = some s1 ∧ s1.finished = s.finished ∧
      s3.finished = s.finished +
        (if e.cin.finished s1.chin s1.sync_frames then 1 else 0) +
        (if e.cout.finished s1.chout s1.sync_frames then 1 else 0) := by
  unfold bodyStep at h
  cases hp : processStep e s with
  | none => rw [hp] at h; cases h
  | some s1 =>
    rw [hp] at h
    simp only [Option.some_bind] at h
    cases hs : sleepStep e (finishOut e period (finishIn e period s1)) with
    | none => rw [hs] at h; cases h
    | some s2 =>
      rw [hs] at h
      simp only [Option.map_some', Option.some_inj] at h
      refine ⟨s1, rfl, (processStep_fields e s s1 hp).1, ?_⟩
      rcases finishIn_fields e period s1 with ⟨fi1, fi2, fi3⟩
      have fo1 := finishOut_fields e period (finishIn e period s1)
      rw [← h, gapApply_finished s2, sleepStep_finished e _ s2 hs, fo1,
        fi1, fi2, fi3, (processStep_fields e s s1 hp).1]

theorem loopRun_zero (e : Env σi σo τ) (period : Int) (reps : Nat)
    (s : LoopState σi σo τ) :
    loopRun e period reps 0 s =
      if reps > s.finished then none else some (s, 0) := rfl

theorem loopRun_succ (e : Env σi σo τ) (period : Int) (reps f : Nat)
    (s : LoopState σi σo τ) :
    loopRun e period reps (Nat.succ f) s =
      if reps > s.finished then
        match bodyStep e period s with
        | none => none
        | some s1 =>
          match loopRun e period reps f s1 with
          | none => none
          | some (sf, n) => some (sf, n + 1)
      else some (s, 0) := rfl

theorem loopRun_ge (e : Env σi σo τ) (period : Int) (reps : Nat) (fuel : Nat) :
    ∀ (s sf : LoopState σi σo τ) (n : Nat),
      loopRun e period reps fuel s = some (sf, n) → reps ≤ sf.finished := by
  induction fuel with
  | zero =>
    intro s sf n h
    rw [loopRun_zero] at h
    by_cases hc : reps > s.finished
    · rw [if_pos hc] at h; cases h
    · rw [if_neg hc] at h
      rw [Option.some_inj, Prod.mk.injEq] at h
      rcases h with ⟨h1, _⟩
      rw [← h1]
      omega
  | succ f ih =>
    intro s sf n h
    rw [loopRun_succ] at h
    by_cases hc : reps > s.finished
    · rw [if_pos hc] at h
      split at h
      · cases h
      · split at h
        · cases h
        · rename_i s1 hb pr sf2 n2 hl
          rw [Option.some_inj, Prod.mk.injEq] at h
          rcases h with ⟨h1, _⟩
          rw [← h1]
          exact ih s1 sf2 n2 hl
    · rw [if_neg hc] at h
      rw [Option.some_inj, Prod.mk.injEq] at h
      rcases h with ⟨h1, _⟩
      rw [← h1]
      omega

/--
Claim C5: the loop runs until the shared finished counter reaches
repetitions; the counter is incremented once per completed period on
either channel within an iteration; on success the final counter has
reached repetitions; and in a concrete run where both channels finish
every period, repetitions 4 ends the loop after 2 iterations, so 4
counts 4 per-channel completions rather than 4 full duplex periods.
-/
theorem loop_counts_completions_per_channel :
    (∀ (α β γ : Type) (e : Env α β γ) (period : Int) (reps fuel : Nat)
        (s : LoopState α β γ), reps ≤ s.finished →
        loopRun e period reps fuel s = some (s, 0)) ∧
    (∀ (α β γ : Type) (e : Env α β γ) (period : Int) (s s3 : LoopState α β γ),
        bodyStep e period s = some s3 →
        ∃ s1, processStep e s = some s1 ∧ s1.finished = s.finished ∧
          s3.finished = s.finished +
            (if e.cin.finished s1.chin s1.sync_frames then 1 else 0) +
            (if e.cout.finished s1.chout s1.sync_frames then 1 else 0)) ∧
    (∀ (α β γ : Type) (e : Env α β γ) (period : Int) (reps fuel : Nat)
        (s sf : LoopState α β γ) (n : Nat),
        loopRun e period reps fuel s = some (sf, n) → reps ≤ sf.finished) ∧
    ((loopRun unitEnv 1024 4 8 (initLoopState () () () 1024)).map
        (fun p => (p.1.finished, p.2)) = some (4, 2)) := by
  refine ⟨?_, ?_, ?_, ?_⟩
  · intro α β γ e period reps fuel s h
    exact loopRun_exit e period reps fuel s h
  · intro α β γ e period s s3 h
    exact bodyStep_count e period s s3 h
  · intro α β γ e period reps fuel s sf n h
    exact loopRun_ge e period reps fuel s sf n h
  · decide

/--
Witness for claim C5: with the counter already at the repetition
count the loop returns at once without an iteration.
-/
theorem loop_counts_completions_per_channel_witness :
    loopRun unitEnv 1024 0 3 (initLoopState () () () 1024) =
      some (initLoopState () () () 1024, 0) :=
  loop_counts_completions_per_channel.1 Unit Unit Unit unitEnv 1024 0 3
    (initLoopState () () () 1024) (Nat.zero_le _)

/--
The gap as the specification words it: the maximum of 0 and of the
amounts by which sync_frames has run past each channel period end.
-/
def gapValue (e : Env σi σo τ) (s : LoopState σi σo τ) : Int :=
  max 0 (max (s.sync_frames - e.cin.period_end s.chin)
    (s.sync_frames - e.cout.period_end s.chout))

/--
Claim C6: inside a successful sleep the gap is computed, after the
catch-up adjustment, as the maximum of 0 and the two overruns past
the channel period ends; reset_buffers with end_frames plus the gap
is called on both channels exactly when the gap exceeds 1024 and the
gap is kept, otherwise the gap is cleared to 0; and back in the loop
body a surviving positive gap is added to in_frames and out_frames
and then cleared.
-/
theorem gap_reset_behavior :
    (∀ (α β γ : Type) (e : Env α β γ) (s : LoopState α β γ),
      sleepStep e s = ((sleepPhase e s).bind (catchupPhase e)).map (gapStage e)) ∧
    (∀ (α β γ : Type) (e : Env α β γ) (period : Int) (s : LoopState α β γ),
      bodyStep e period s = (processStep e s).bind fun s1 =>
        (sleepStep e (finishOut e period (finishIn e period s1))).map gapApply) ∧
    (∀ (α β γ : Type) (e : Env α β γ) (s : LoopState α β γ),
      (gapValue e s > 1024 →
        gapStage e s = { s with
          gap := gapValue e s,
          chin := e.cin.reset_buffers s.chin (e.cin.end_frames s.chin + gapValue e s),
          chout := e.cout.reset_buffers s.chout
            (e.cout.end_frames s.chout + gapValue e s) }) ∧
      (¬ gapValue e s > 1024 → gapStage e s = { s with gap := 0 })) ∧
    (∀ (α β γ : Type) (s : LoopState α β γ),
      (s.gap > 0 → gapApply s = { s with
          in_frames := s.in_frames + s.gap,
          out_frames := s.out_frames + s.gap,
          gap := 0 }) ∧
      (¬ s.gap > 0 → gapApply s = s)) := by
  refine ⟨fun α β γ e s => rfl, fun α β γ e period s => rfl, ?_, ?_⟩
  · intro α β γ e s
    have hg : max (max 0 (s.sync_frames - e.cin.period_end s.chin))
        (s.sync_frames - e.cout.period_end s.chout) = gapValue e s :=
      max_assoc _ _ _
    constructor
    · intro hgt
      unfold gapStage
      dsimp only
      rw [hg, if_pos hgt]
    · intro hle
      unfold gapStage
      dsimp only
      rw [hg, if_neg hle]
  · intro α β γ s
    constructor
    · intro hpos
      unfold gapApply
      rw [if_pos hpos]
    · intro hle
      unfold gapApply
      rw [if_neg hle]

/--
Witness for claim C6 at the unit environment entry state, where the
period ends lie far ahead so the gap is not above 1024 and is cleared.
-/
theorem gap_reset_behavior_witness :
    gapStage unitEnv (initLoopState () () () 1024) =
      { initLoopState () () () 1024 with gap := 0 } :=
  (gap_reset_behavior.2.2.1 Unit Unit Unit unitEnv
    (initLoopState () () () 1024)).2 (by decide)

/--
Claim C7: when a sleep is actually performed, that is when the
minimum of the two wakeup times exceeds sync_frames, the clock is
slept to the wakeup plus a simulated delay of 8 times 1024 frames
exactly when the current 1024-frame block index is congruent to 7
modulo 8, and sync_frames is then set to the wakeup, not to the
wakeup plus the delay; with no sleep performed the state is
unchanged; and for nonnegative sync_frames the block condition in
the source agrees with the floor formulation of the specification.
-/
theorem sim_delay_on_eighth_block :
    ∀ (α β γ : Type) (e : Env α β γ) (s : LoopState α β γ),
      (min (e.cin.wakeup_time s.chin s.sync_frames)
          (e.cout.wakeup_time s.chout s.sync_frames) > s.sync_frames →
        sleepPhase e s = (e.clk.sleep s.clock
            (min (e.cin.wakeup_time s.chin s.sync_frames)
              (e.cout.wakeup_time s.chout s.sync_frames) +
              (if (s.sync_frames.tdiv 1024).tmod 8 = 7 then 8 * 1024 else 0))).map
          (fun t => { s with
            clock := t,
            sync_frames := min (e.cin.wakeup_time s.chin s.sync_frames)
              (e.cout.wakeup_time s.chout s.sync_frames) })) ∧
      (¬ min (e.cin.wakeup_time s.chin s.sync_frames)
          (e.cout.wakeup_time s.chout s.sync_frames) > s.sync_frames →
        sleepPhase e s = some s) ∧
      (0 ≤ s.sync_frames →
        (((s.sync_frames.tdiv 1024).tmod 8 = 7 ↔
          (s.sync_frames.toNat / 1024) % 8 = 7))) := by
  intro α β γ e s
  refine ⟨?_, ?_, ?_⟩
  · intro hgt
    unfold sleepPhase
    dsimp only
    rw [if_pos hgt]
  · intro hle
    unfold sleepPhase
    dsimp only
    rw [if_neg hle]
  · intro hnn
    obtain ⟨m, hm⟩ : ∃ m : Nat, s.sync_frames = (m : Int) :=
      ⟨s.sync_frames.toNat, (Int.toNat_of_nonneg hnn).symm⟩
    rw [hm]
    have h1 : (((m : Int)).tdiv 1024).tmod 8 = (((m / 1024) % 8 : Nat) : Int) := rfl
    have h2 : ((m : Int)).toNat = m := rfl
    rw [h1, h2]
    constructor
    · intro hh
      exact_mod_cast hh
    · intro hh
      exact_mod_cast hh

/--
Witness for claim C7 at the unit environment entry state, where the
wakeup equals sync_frames so no sleep is performed.
-/
theorem sim_delay_on_eighth_block_witness :
    sleepPhase unitEnv (initLoopState () () () 1024) =
      some (initLoopState () () () 1024) :=
  (sim_delay_on_eighth_block Unit Unit Unit unitEnv
    (initLoopState () () () 1024)).2.1 (by decide)

end Sosso
